import Mathlib

/-!
Shallow embedding of the agent subsystem of the i4z_ide repository
(src/agent/mod.rs, src/agent/executor.rs, src/agent/actions.rs).

Paths are modelled as strings; Rust `Path` component semantics
(`Path::components`, `Path::starts_with`, `Path::join`, `Path::is_absolute`)
are embedded explicitly over the character data.  The filesystem and the
host shell are external collaborators; they are modelled as explicit state
(an association list of paths to nodes) and an oracle function inside a
`World` value, and every call the executor makes into them is recorded as
an `Effect` so that statements about side effects are expressible.
-/

set_option maxRecDepth 10000

/-- Single-quote character, kept out of string literals. -/
def squo : String := String.mk [Char.ofNat 39]

/-- Splits character data on the slash separator, the helper behind
`pathComponents` (Rust `Path::components` iterates between separators). -/
def splitSlash (cs : List Char) (cur : List Char) : List String :=
  match cs with
  | [] => [String.mk cur.reverse]
  | c :: rest =>
    if c = Char.ofNat 47 then String.mk cur.reverse :: splitSlash rest []
    else splitSlash rest (c :: cur)

/-- Embedding of Rust `Path::is_absolute` on Unix: the path has a root,
i.e. its text begins with a slash. -/
def isAbsolutePath (s : String) : Bool :=
  match s.data with
  | c :: _ => c = Char.ofNat 47
  | [] => false

/-- Embedding of Rust `Path::components` (Unix): a leading root component
is kept as the marker string "/", empty segments (duplicate separators)
are dropped, and `.` segments are dropped except a leading `CurDir`. -/
def pathComponents (s : String) : List String :=
  let raw := (splitSlash s.data []).filter (fun c => c ≠ "")
  if isAbsolutePath s then
    "/" :: raw.filter (fun c => c ≠ ".")
  else
    match raw with
    | "." :: tl => "." :: tl.filter (fun c => c ≠ ".")
    | l => l.filter (fun c => c ≠ ".")

/-- Rebuilds a path string from a component list produced by
`pathComponents` (used to form parent paths). -/
def pathOfComponents (cs : List String) : String :=
  match cs with
  | "/" :: rest => "/" ++ String.intercalate "/" rest
  | rest => String.intercalate "/" rest

/-- True when the character data of `s` ends in a slash. -/
def endsWithSlash (s : String) : Bool :=
  match s.data.getLast? with
  | some c => c = Char.ofNat 47
  | none => false

/-- Embedding of Rust `PathBuf::join` / `push`: an absolute argument
replaces the base; otherwise the argument is appended, inserting a
separator unless the base is empty or already ends in one. -/
def pathJoin (a b : String) : String :=
  if isAbsolutePath b then b
  else if a.data = [] then b
  else if endsWithSlash a then a ++ b
  else a ++ "/" ++ b

/-- Component-list test used to embed Rust `Path::starts_with`:
`isLeadOf xs ys` holds when `xs` is an initial segment of `ys`. -/
def isLeadOf (xs ys : List String) : Bool :=
  match xs, ys with
  | [], _ => true
  | _ :: _, [] => false
  | x :: xs, y :: ys => x = y && isLeadOf xs ys

/-- Character-level initial-segment test on raw strings (what a naive
substring comparison of paths would do; contrasted with `isLeadOf` over
components in the restricted-path theorems). -/
def strLeads (p s : String) : Bool :=
  p.data.isPrefixOf s.data

/-- Substring search on character data, first index of an occurrence. -/
def findSubAux (pat : List Char) (cs : List Char) (i : Nat) : Option Nat :=
  if pat.isPrefixOf cs then some i
  else
    match cs with
    | [] => none
    | _ :: rest => findSubAux pat rest (i + 1)

/-- Embedding of Rust `str::find` with a string pattern: the char index of
the first occurrence of `pat` in `s`. -/
def strFind (s pat : String) : Option Nat :=
  findSubAux pat.data s.data 0

/-- Embedding of Rust `str::contains` with a string pattern. -/
def strContains (s pat : String) : Bool :=
  (strFind s pat).isSome

/-- Capability policy, from `AgentCapabilities` in src/agent/mod.rs. -/
structure AgentCapabilities where
  can_read_files : Bool
  can_write_files : Bool
  can_execute_commands : Bool
  can_modify_filesystem : Bool
  restricted_paths : List String
deriving DecidableEq

/-- Embedding of `AgentCapabilities::default` in src/agent/mod.rs. -/
def defaultCapabilities : AgentCapabilities :=
  { can_read_files := true
    can_write_files := true
    can_execute_commands := false
    can_modify_filesystem := true
    restricted_paths := ["/etc", "/root", "/sys", "/proc"] }

/-- Action taxonomy, from `AgentAction` in src/agent/mod.rs. -/
inductive AgentAction where
  | ReadFile (path : String)
  | WriteFile (path : String) (content : String)
  | CreateDirectory (path : String)
  | DeleteFile (path : String)
  | ExecuteCommand (command : String) (working_dir : Option String)
  | SearchFiles (pattern : String) (directory : Option String)
  | ReplaceInFile (path : String) (old : String) (new : String)
  | ListDirectory (path : String)
  | GetFileInfo (path : String)
deriving DecidableEq

/-- Response record, from `AgentResponse` in src/agent/mod.rs. -/
structure AgentResponse where
  success : Bool
  message : String
  data : Option String
  error : Option String
deriving DecidableEq

/-- Embedding of the `AgentResponse::success` constructor function
(renamed: the field named `success` occupies that name in Lean). -/
def AgentResponse.mkSuccess (message : String) (data : Option String) : AgentResponse :=
  { success := true, message := message, data := data, error := none }

/-- Embedding of the `AgentResponse::error` constructor function. -/
def AgentResponse.mkError (message : String) (error : String) : AgentResponse :=
  { success := false, message := message, data := none, error := some error }

/-- Filesystem node: a regular file with text content, or a directory. -/
inductive FsNode where
  | file (content : String)
  | dir
deriving DecidableEq

/-- Filesystem model: an association list from absolute path strings to
nodes (the external POSIX collaborator of the executor). -/
structure FileSystem where
  entries : List (String × FsNode)
deriving DecidableEq

/-- Node stored at a path, if any. -/
def fsLookup (fs : FileSystem) (p : String) : Option FsNode :=
  (fs.entries.find? (fun e => e.1 = p)).map (fun e => e.2)

/-- Embedding of `Path::is_file` against the model. -/
def fsIsFile (fs : FileSystem) (p : String) : Bool :=
  match fsLookup fs p with
  | some (FsNode.file _) => true
  | _ => false

/-- Embedding of `Path::is_dir` against the model. -/
def fsIsDir (fs : FileSystem) (p : String) : Bool :=
  match fsLookup fs p with
  | some FsNode.dir => true
  | _ => false

/-- Embedding of `fs::read_to_string`: the content when `p` is a file. -/
def fsReadToString (fs : FileSystem) (p : String) : Option String :=
  match fsLookup fs p with
  | some (FsNode.file c) => some c
  | _ => none

/-- Inserts or replaces the node at a path. -/
def fsInsert (fs : FileSystem) (p : String) (n : FsNode) : FileSystem :=
  ⟨(p, n) :: fs.entries.filter (fun e => e.1 ≠ p)⟩

/-- Embedding of `fs::write` (truncate and replace): fails when the path
is an existing directory. -/
def fsWriteFile (fs : FileSystem) (p : String) (content : String) : Option FileSystem :=
  if fsIsDir fs p then none else some (fsInsert fs p (FsNode.file content))

/-- Embedding of `fs::remove_file`. -/
def fsRemoveFile (fs : FileSystem) (p : String) : FileSystem :=
  ⟨fs.entries.filter (fun e => e.1 ≠ p)⟩

/-- Embedding of `fs::remove_dir_all`: removes the directory and every
entry whose components extend its components. -/
def fsRemoveDirAll (fs : FileSystem) (p : String) : FileSystem :=
  ⟨fs.entries.filter (fun e => ¬ isLeadOf (pathComponents p) (pathComponents e.1))⟩

/-- Nonempty leading segments of a component list (the chain of ancestor
directories `create_dir_all` must ensure). -/
def leadSegments (cs : List String) : List (List String) :=
  match cs with
  | [] => []
  | c :: rest => [c] :: (leadSegments rest).map (fun l => c :: l)

/-- Embedding of `fs::create_dir_all`: fails when some ancestor (or the
path itself) already exists as a regular file, otherwise records every
missing ancestor directory. -/
def fsCreateDirAll (fs : FileSystem) (p : String) : Option FileSystem :=
  let paths := (leadSegments (pathComponents p)).map pathOfComponents
  if paths.any (fun q => fsIsFile fs q) then none
  else some (paths.foldl (fun acc q =>
    if fsIsDir acc q then acc else fsInsert acc q FsNode.dir) fs)

/-- Immediate child of `d` described by entry `e`, when `e` sits exactly
one component below `d`: full path, file name, and directory flag. -/
def childEntry (d : String) (e : String × FsNode) : Option (String × String × Bool) :=
  let dc := pathComponents d
  let ec := pathComponents e.1
  if ec.length = dc.length + 1 && isLeadOf dc ec then
    some (e.1, ec.getLastD "", e.2 = FsNode.dir)
  else none

/-- Embedding of `fs::read_dir`: the immediate entries of a directory
(full path, file name, directory flag), or failure when `p` is not a
directory in the model. -/
def fsReadDir (fs : FileSystem) (p : String) : Option (List (String × String × Bool)) :=
  if fsIsDir fs p then some (fs.entries.filterMap (childEntry p)) else none

/-- Captured output of one child process, from `std::process::Output`. -/
structure CmdOutput where
  statusSuccess : Bool
  stdout : String
  stderr : String

/-- External world: the filesystem, the host shell (an oracle from
command text and working directory to a spawn result), and the OS
read-only permission bit per path. -/
structure World where
  fs : FileSystem
  shell : String → String → Except String CmdOutput
  roFlag : String → Bool

/-- One observable interaction of the executor with the world, recorded
in dispatch order. -/
inductive Effect where
  | readEff (path : String)
  | writeEff (path : String)
  | createDirEff (path : String)
  | removeFileEff (path : String)
  | removeDirEff (path : String)
  | readDirEff (path : String)
  | statEff (path : String)
  | runCommandEff (command : String) (cwd : String)
deriving DecidableEq

/-- Executor state, from `DefaultAgentExecutor` in src/agent/executor.rs:
a capability policy and the session working directory. -/
structure DefaultAgentExecutor where
  capabilities : AgentCapabilities
  current_directory : String
deriving DecidableEq

/-- Embedding of `DefaultAgentExecutor::is_path_restricted`: some
configured restricted path is a component-wise lead of `path`
(Rust `Path::starts_with`). -/
def is_path_restricted (ex : DefaultAgentExecutor) (path : String) : Bool :=
  ex.capabilities.restricted_paths.any
    (fun restricted => isLeadOf (pathComponents restricted) (pathComponents path))

/-- Embedding of `DefaultAgentExecutor::resolve_path`. -/
def resolve_path (ex : DefaultAgentExecutor) (path : String) : String :=
  if isAbsolutePath path then path
  else pathJoin ex.current_directory path

/-- Embedding of `DefaultAgentExecutor::is_safe_action`. -/
def is_safe_action (ex : DefaultAgentExecutor) (action : AgentAction) : Bool :=
  match action with
  | AgentAction.ReadFile path =>
    ex.capabilities.can_read_files && !is_path_restricted ex (resolve_path ex path)
  | AgentAction.WriteFile path _ =>
    ex.capabilities.can_write_files && !is_path_restricted ex (resolve_path ex path)
  | AgentAction.CreateDirectory path =>
    ex.capabilities.can_modify_filesystem && !is_path_restricted ex (resolve_path ex path)
  | AgentAction.DeleteFile path =>
    ex.capabilities.can_modify_filesystem && !is_path_restricted ex (resolve_path ex path)
  | AgentAction.ExecuteCommand _ _ =>
    ex.capabilities.can_execute_commands
  | AgentAction.SearchFiles _ directory =>
    match directory with
    | some dir => !is_path_restricted ex (resolve_path ex dir)
    | none => !is_path_restricted ex ex.current_directory
  | AgentAction.ReplaceInFile path _ _ =>
    ex.capabilities.can_write_files && !is_path_restricted ex (resolve_path ex path)
  | AgentAction.ListDirectory path =>
    ex.capabilities.can_read_files && !is_path_restricted ex (resolve_path ex path)
  | AgentAction.GetFileInfo path =>
    ex.capabilities.can_read_files && !is_path_restricted ex (resolve_path ex path)

/-- Parent path of a resolved path (Rust `Path::parent`), `none` when the
path has at most one component. -/
def parentOf (s : String) : Option String :=
  let c := pathComponents s
  if c.length ≤ 1 then none else some (pathOfComponents c.dropLast)

/-- Modelled OS error text: the executor copies the underlying error's
`to_string()` into the response verbatim; the exact words come from the
operating system and are opaque to this development. -/
def osErrorText : String := "os error"

/-- Left-aligns a string in a field of width six, padding with spaces:
the Rust format directive applied to the DIR or FILE tag. -/
def leftAlign6 (t : String) : String :=
  t ++ String.mk (List.replicate (6 - t.length) (Char.ofNat 32))

/-- Embedding of one `ListDirectory` item: the Rust formatting call
applied to the type tag and the file name. -/
def renderEntry (isDir : Bool) (name : String) : String :=
  leftAlign6 (if isDir then "DIR" else "FILE") ++ " " ++ name

/-- Lexicographic strict order on character data, the comparison behind
`Ord` for Rust strings (UTF-8 byte order coincides with scalar-value
order). -/
def listLtB : List Char → List Char → Bool
  | [], [] => false
  | [], _ :: _ => true
  | _ :: _, [] => false
  | a :: as, b :: bs => if a < b then true else if b < a then false else listLtB as bs

/-- Strict string comparison over character data. -/
def strLtB (a b : String) : Bool := listLtB a.data b.data

/-- Inserts a string into a sorted list, preserving ascending order. -/
def insertSorted (x : String) : List String → List String
  | [] => [x]
  | y :: l => if strLtB x y then x :: y :: l else y :: insertSorted x l

/-- Embedding of `Vec::sort` on strings: ascending lexicographic sort. -/
def sortStrings (l : List String) : List String :=
  l.foldr insertSorted []

/-- Embedding of `DefaultAgentExecutor::execute_action` from
src/agent/executor.rs.  The Rust signature returns
`Result<AgentResponse>`; every arm of the source wraps its response in
`Ok`, mirrored here by `Except.ok`.  Alongside the response the new world
and the ordered list of collaborator calls made by the arm are returned.
Removal of an existing file or tree always succeeds in the model, so the
`Err` arms of the source's removal match reduce away. -/
def executeAction (ex : DefaultAgentExecutor) (w : World) (action : AgentAction) :
    Except String (AgentResponse × World × List Effect) :=
  if !is_safe_action ex action then
    Except.ok (AgentResponse.mkError "Action not permitted"
      "This action is restricted by the current capabilities", w, [])
  else
    match action with
    | AgentAction.ReadFile path =>
      let resolved := resolve_path ex path
      match fsReadToString w.fs resolved with
      | some content =>
        Except.ok (AgentResponse.mkSuccess ("Successfully read file: " ++ resolved)
          (some content), w, [Effect.readEff resolved])
      | none =>
        Except.ok (AgentResponse.mkError ("Failed to read file: " ++ resolved)
          osErrorText, w, [Effect.readEff resolved])
    | AgentAction.WriteFile path content =>
      let resolved := resolve_path ex path
      match parentOf resolved with
      | some parent =>
        match fsCreateDirAll w.fs parent with
        | none =>
          Except.ok (AgentResponse.mkError "Failed to create parent directories"
            osErrorText, w, [Effect.createDirEff parent])
        | some fs1 =>
          match fsWriteFile fs1 resolved content with
          | some fs2 =>
            Except.ok (AgentResponse.mkSuccess ("Successfully wrote file: " ++ resolved)
              none, { w with fs := fs2 }, [Effect.createDirEff parent, Effect.writeEff resolved])
          | none =>
            Except.ok (AgentResponse.mkError ("Failed to write file: " ++ resolved)
              osErrorText, { w with fs := fs1 }, [Effect.createDirEff parent, Effect.writeEff resolved])
      | none =>
        match fsWriteFile w.fs resolved content with
        | some fs2 =>
          Except.ok (AgentResponse.mkSuccess ("Successfully wrote file: " ++ resolved)
            none, { w with fs := fs2 }, [Effect.writeEff resolved])
        | none =>
          Except.ok (AgentResponse.mkError ("Failed to write file: " ++ resolved)
            osErrorText, w, [Effect.writeEff resolved])
    | AgentAction.CreateDirectory path =>
      let resolved := resolve_path ex path
      match fsCreateDirAll w.fs resolved with
      | some fs1 =>
        Except.ok (AgentResponse.mkSuccess ("Successfully created directory: " ++ resolved)
          none, { w with fs := fs1 }, [Effect.createDirEff resolved])
      | none =>
        Except.ok (AgentResponse.mkError ("Failed to create directory: " ++ resolved)
          osErrorText, w, [Effect.createDirEff resolved])
    | AgentAction.DeleteFile path =>
      let resolved := resolve_path ex path
      if fsIsFile w.fs resolved then
        Except.ok (AgentResponse.mkSuccess ("Successfully deleted: " ++ resolved)
          none, { w with fs := fsRemoveFile w.fs resolved },
          [Effect.statEff resolved, Effect.removeFileEff resolved])
      else if fsIsDir w.fs resolved then
        Except.ok (AgentResponse.mkSuccess ("Successfully deleted: " ++ resolved)
          none, { w with fs := fsRemoveDirAll w.fs resolved },
          [Effect.statEff resolved, Effect.removeDirEff resolved])
      else
        Except.ok (AgentResponse.mkError "Path does not exist"
          ("Path " ++ resolved ++ " does not exist"), w, [Effect.statEff resolved])
    | AgentAction.ExecuteCommand command working_dir =>
      let wd := working_dir.getD ex.current_directory
      match w.shell command wd with
      | Except.ok out =>
        let combined :=
          if out.stderr = "" then out.stdout
          else "STDOUT:\n" ++ out.stdout ++ "\n\nSTDERR:\n" ++ out.stderr
        if out.statusSuccess then
          Except.ok (AgentResponse.mkSuccess ("Command executed successfully: " ++ command)
            (some combined), w, [Effect.runCommandEff command wd])
        else
          Except.ok (AgentResponse.mkError ("Command failed: " ++ command)
            combined, w, [Effect.runCommandEff command wd])
      | Except.error e =>
        Except.ok (AgentResponse.mkError ("Failed to execute command: " ++ command)
          e, w, [Effect.runCommandEff command wd])
    | AgentAction.SearchFiles pattern directory =>
      let search_dir := directory.getD ex.current_directory
      let resolved := resolve_path ex search_dir
      let found :=
        match fsReadDir w.fs resolved with
        | some entries => (entries.filter (fun e => strContains e.2.1 pattern)).map (fun e => e.1)
        | none => []
      Except.ok (AgentResponse.mkSuccess
        ("Found " ++ toString found.length ++ " matches for pattern " ++ squo ++ pattern ++ squo)
        (some (String.intercalate "\n" found)), w, [Effect.readDirEff resolved])
    | AgentAction.ReplaceInFile path old new =>
      let resolved := resolve_path ex path
      match fsReadToString w.fs resolved with
      | some content =>
        let new_content := content.replace old new
        match fsWriteFile w.fs resolved new_content with
        | some fs2 =>
          Except.ok (AgentResponse.mkSuccess ("Successfully replaced text in: " ++ resolved)
            none, { w with fs := fs2 }, [Effect.readEff resolved, Effect.writeEff resolved])
        | none =>
          Except.ok (AgentResponse.mkError ("Failed to write file: " ++ resolved)
            osErrorText, w, [Effect.readEff resolved, Effect.writeEff resolved])
      | none =>
        Except.ok (AgentResponse.mkError ("Failed to read file: " ++ resolved)
          osErrorText, w, [Effect.readEff resolved])
    | AgentAction.ListDirectory path =>
      let resolved := resolve_path ex path
      match fsReadDir w.fs resolved with
      | some entries =>
        let items := entries.map (fun e => renderEntry e.2.2 e.2.1)
        Except.ok (AgentResponse.mkSuccess ("Listed directory: " ++ resolved)
          (some (String.intercalate "\n" (sortStrings items))), w, [Effect.readDirEff resolved])
      | none =>
        Except.ok (AgentResponse.mkError ("Failed to list directory: " ++ resolved)
          osErrorText, w, [Effect.readDirEff resolved])
    | AgentAction.GetFileInfo path =>
      let resolved := resolve_path ex path
      match fsLookup w.fs resolved with
      | some node =>
        let file_type := match node with
          | FsNode.dir => "Directory"
          | FsNode.file _ => "File"
        let size := match node with
          | FsNode.file c => toString c.utf8ByteSize ++ " bytes"
          | FsNode.dir => "N/A"
        let info := "Path: " ++ resolved ++ "\nType: " ++ file_type ++ "\nSize: " ++ size
          ++ "\nReadonly: " ++ (if w.roFlag resolved then "true" else "false")
        Except.ok (AgentResponse.mkSuccess ("File info for: " ++ resolved)
          (some info), w, [Effect.statEff resolved])
      | none =>
        Except.ok (AgentResponse.mkError ("Failed to get file info: " ++ resolved)
          osErrorText, w, [Effect.statEff resolved])

/-- Dispatch never reaches the `Except.error` constructor. -/
theorem executeAction_isOk (ex : DefaultAgentExecutor) (w : World) (a : AgentAction) :
    ∃ r, executeAction ex w a = Except.ok r := by
  cases a <;> simp only [executeAction] <;> (repeat' split) <;> exact ⟨_, rfl⟩

/-- Successful payload of `executeAction`; total by `executeAction_isOk`. -/
def execOut (ex : DefaultAgentExecutor) (w : World) (a : AgentAction) :
    AgentResponse × World × List Effect :=
  match executeAction ex w a with
  | Except.ok r => r
  | Except.error _ => (AgentResponse.mkError "" "", w, [])

/-- The dispatch result is exactly the `execOut` payload wrapped in
`Except.ok`. -/
theorem executeAction_eq_ok (ex : DefaultAgentExecutor) (w : World) (a : AgentAction) :
    executeAction ex w a = Except.ok (execOut ex w a) := by
  obtain ⟨r, hr⟩ := executeAction_isOk ex w a
  simp only [execOut, hr]

/-- Sequential batch execution, the loop body of `process_agent_message`
in src/agent/actions.rs: the `?` after `execute_action` propagates an
`Err` and otherwise accumulates the response, threading the world. -/
def runBatch (ex : DefaultAgentExecutor) (w : World) :
    List AgentAction → Except String (List AgentResponse × World)
  | [] => Except.ok ([], w)
  | a :: rest =>
    match executeAction ex w a with
    | Except.error e => Except.error e
    | Except.ok (r, w1, _) =>
      match runBatch ex w1 rest with
      | Except.error e => Except.error e
      | Except.ok (rs, w2) => Except.ok (r :: rs, w2)

/-- Open parenthesis character. -/
def cOParen : Char := Char.ofNat 40
/-- Close parenthesis character. -/
def cCParen : Char := Char.ofNat 41
/-- Open square bracket character. -/
def cOBrack : Char := Char.ofNat 91
/-- Close square bracket character. -/
def cCBrack : Char := Char.ofNat 93
/-- Backslash character. -/
def cBSlash : Char := Char.ofNat 92
/-- Question mark character. -/
def cQMark : Char := Char.ofNat 63
/-- Colon character. -/
def cColon : Char := Char.ofNat 58
/-- Dot character. -/
def cDot : Char := Char.ofNat 46
/-- Asterisk character. -/
def cStar : Char := Char.ofNat 42
/-- Plus sign character. -/
def cPlusSign : Char := Char.ofNat 43
/-- Vertical bar character. -/
def cPipe : Char := Char.ofNat 124
/-- Open curly brace character. -/
def cOBrace : Char := Char.ofNat 123
/-- Close curly brace character. -/
def cCBrace : Char := Char.ofNat 125
/-- Caret character. -/
def cCaret : Char := Char.ofNat 94
/-- Dollar sign character. -/
def cDollar : Char := Char.ofNat 36
/-- Hyphen character. -/
def cDash : Char := Char.ofNat 45
/-- Newline character. -/
def cNL : Char := Char.ofNat 10
/-- Space character. -/
def cSpace : Char := Char.ofNat 32

/-- Characters matched by the whitespace shorthand class. -/
def whitespaceChars : List Char :=
  [Char.ofNat 32, Char.ofNat 9, Char.ofNat 10, Char.ofNat 13, Char.ofNat 11, Char.ofNat 12]

/-- Word characters, the shorthand class of letters, digits and the
underscore. -/
def isWordChar (c : Char) : Bool :=
  c.isAlphanum || c = Char.ofNat 95

/-- Case-insensitive-aware character equality. -/
def ciEq (ci : Bool) (a b : Char) : Bool :=
  if ci then a.toLower = b.toLower else a = b

/-- Regular-expression tree covering the constructs the source patterns
use: single-character predicates, sequencing, one capturing group,
optionals, and greedy or lazy repetition. -/
inductive RE where
  | eps
  | chr (p : Char → Bool)
  | seq (a b : RE)
  | grp (a : RE)
  | opt (a : RE)
  | starG (a : RE)
  | starL (a : RE)

/-- Matcher state: current position and the recorded span of the first
capturing group. -/
structure MState where
  pos : Nat
  cap1 : Option (Nat × Nat)
deriving DecidableEq

/-- Backtracking matcher: all final states of matching `re` against `cs`
from state `st`, listed in leftmost-first priority order (greedy
repetition prefers more iterations, lazy repetition prefers fewer). -/
def mrun : Nat → RE → List Char → MState → List MState
  | 0, _, _, _ => []
  | fuel + 1, re, cs, st =>
    match re with
    | RE.eps => [st]
    | RE.chr p =>
      match cs.get? st.pos with
      | some c => if p c then [{ st with pos := st.pos + 1 }] else []
      | none => []
    | RE.seq a b => (mrun fuel a cs st).flatMap (mrun fuel b cs)
    | RE.grp a =>
      (mrun fuel a cs st).map (fun st2 => { st2 with cap1 := some (st.pos, st2.pos) })
    | RE.opt a => mrun fuel a cs st ++ [st]
    | RE.starG a =>
      (((mrun fuel a cs st).filter (fun st2 => st.pos < st2.pos)).flatMap
        (fun st2 => mrun fuel (RE.starG a) cs st2)) ++ [st]
    | RE.starL a =>
      st :: ((mrun fuel a cs st).filter (fun st2 => st.pos < st2.pos)).flatMap
        (fun st2 => mrun fuel (RE.starL a) cs st2)

/-- Fuel given to the matcher, ample for every concrete evaluation in
this development. -/
def matchFuel : Nat := 100000

/-- First match of `re` at or after position `i`: start, end, and the
group-one span. -/
def scanFrom (re : RE) (cs : List Char) : Nat → Nat → Option (Nat × Nat × Option (Nat × Nat))
  | 0, _ => none
  | fuel + 1, i =>
    if i > cs.length then none
    else
      match (mrun matchFuel re cs { pos := i, cap1 := none }).head? with
      | some st => some (i, st.pos, st.cap1)
      | none => scanFrom re cs fuel (i + 1)

/-- Successive non-overlapping matches starting at position `i`, the
semantics of the iterator over captures. -/
def capturesAux (re : RE) (cs : List Char) : Nat → Nat → List (Nat × Nat × Option (Nat × Nat))
  | 0, _ => []
  | fuel + 1, i =>
    match scanFrom re cs (cs.length + 1) i with
    | none => []
    | some m =>
      m :: capturesAux re cs fuel (if m.1 < m.2.1 then m.2.1 else m.2.1 + 1)

/-- All matches of `re` in `s`, leftmost first, non-overlapping. -/
def capturesOf (re : RE) (s : String) : List (Nat × Nat × Option (Nat × Nat)) :=
  capturesAux re s.data (s.data.length + 1) 0

/-- Substring of `s` between char positions `a` (inclusive) and `b`
(exclusive). -/
def subStr (s : String) (a b : Nat) : String :=
  String.mk ((s.data.drop a).take (b - a))

/-- Predicate of one escape sequence: shorthand classes for whitespace,
newline and word characters are supported, escaped punctuation is a
literal, and any other alphanumeric escape is unsupported (compilation
fails closed, as the real engine rejects unknown escapes). -/
def escPred (e : Char) : Option (Char → Bool) :=
  if e = Char.ofNat 115 then some (fun ch => whitespaceChars.contains ch)
  else if e = Char.ofNat 110 then some (fun ch => ch = cNL)
  else if e = Char.ofNat 119 then some (fun ch => isWordChar ch)
  else if e.isAlphanum then none
  else some (fun ch => ch = e)

/-- Members of a character class up to the closing bracket.  A trailing
backslash or an unknown escape is a compilation failure; ranges do not
occur in the source patterns and are unsupported. -/
def parseClassItems (ci : Bool) : Nat → List Char → Option (List (Char → Bool) × List Char)
  | 0, _ => none
  | fuel + 1, cs =>
    match cs with
    | [] => none
    | c :: rest =>
      if c = cCBrack then some ([], rest)
      else if c = cBSlash then
        match rest with
        | [] => none
        | e :: rest2 =>
          match escPred e with
          | some p => (parseClassItems ci fuel rest2).map (fun ir => (p :: ir.1, ir.2))
          | none => none
      else if c = cDash then none
      else (parseClassItems ci fuel rest).map
        (fun ir => ((fun ch => ciEq ci ch c) :: ir.1, ir.2))

/-- Character class after the opening bracket: optional negation caret,
then members. -/
def parseClass (ci : Bool) (cs : List Char) : Option ((Char → Bool) × List Char) :=
  let neg := cs.head? = some cCaret
  let cs2 := if neg then cs.drop 1 else cs
  (parseClassItems ci (cs2.length + 1) cs2).map
    (fun ir => (fun ch => if neg then !(ir.1.any (fun p => p ch)) else ir.1.any (fun p => p ch), ir.2))

/-- Applies a postfix quantifier, if present, to a parsed atom:
optional, greedy or lazy plus, greedy or lazy star. -/
def quantSplit (a : RE) (cs : List Char) : RE × List Char :=
  match cs with
  | [] => (a, [])
  | c :: rest =>
    if c = cQMark then (RE.opt a, rest)
    else if c = cPlusSign then
      match rest with
      | c2 :: rest2 =>
        if c2 = cQMark then (RE.seq a (RE.starL a), rest2) else (RE.seq a (RE.starG a), rest)
      | [] => (RE.seq a (RE.starG a), rest)
    else if c = cStar then
      match rest with
      | c2 :: rest2 =>
        if c2 = cQMark then (RE.starL a, rest2) else (RE.starG a, rest)
      | [] => (RE.starG a, rest)
    else (a, cs)

/-- Recursive-descent reading of a pattern as a sequence of quantified
atoms, stopping at a close parenthesis.  Unsupported constructs
(alternation, counted repetition, anchors, inline flags past the leading
one, an escape at end of input) yield `none`, as `Regex::new` fails on
anything the embedding does not cover. -/
def parseRE (ci : Bool) : Nat → List Char → Option (RE × List Char)
  | 0, _ => none
  | fuel + 1, cs =>
    match cs with
    | [] => some (RE.eps, [])
    | c :: rest =>
      if c = cCParen then some (RE.eps, cs)
      else
        let atomOut : Option (RE × List Char) :=
          if c = cOParen then
            if List.isPrefixOf [cQMark, cColon] rest then
              match parseRE ci fuel (rest.drop 2) with
              | some (a, cs2) =>
                match cs2 with
                | c2 :: rest3 => if c2 = cCParen then some (a, rest3) else none
                | [] => none
              | none => none
            else if rest.head? = some cQMark then none
            else
              match parseRE ci fuel rest with
              | some (a, cs2) =>
                match cs2 with
                | c2 :: rest3 => if c2 = cCParen then some (RE.grp a, rest3) else none
                | [] => none
              | none => none
          else if c = cOBrack then
            (parseClass ci rest).map (fun pr => (RE.chr pr.1, pr.2))
          else if c = cBSlash then
            match rest with
            | [] => none
            | e :: rest2 => (escPred e).map (fun p => (RE.chr p, rest2))
          else if c = cDot then some (RE.chr (fun ch => ch ≠ cNL), rest)
          else if c = cQMark || c = cPlusSign || c = cStar || c = cPipe || c = cOBrace
              || c = cCBrace || c = cCaret || c = cDollar then none
          else some (RE.chr (fun ch => ciEq ci ch c), rest)
        match atomOut with
        | none => none
        | some (a, restA) =>
          let q := quantSplit a restA
          match parseRE ci fuel q.2 with
          | some (b, rest3) => some (RE.seq q.1 b, rest3)
          | none => none

/-- Embedding of `Regex::new`: recognises a leading case-insensitive
flag group, then reads the whole pattern; any leftover text or
unsupported construct means compilation fails. -/
def compileRE (pattern : String) : Option RE :=
  let hasCI := List.isPrefixOf [cOParen, cQMark, Char.ofNat 105, cCParen] pattern.data
  let cs := if hasCI then pattern.data.drop 4 else pattern.data
  match parseRE hasCI (cs.length * 2 + 8) cs with
  | some (re, []) => some re
  | _ => none

/-- Group-one texts of every match of `re` in `s`, the loop over the
capture iterator keeping `cap.get(1)`. -/
def group1Strings (re : RE) (s : String) : List String :=
  (capturesOf re s).filterMap (fun m => m.2.2.map (fun sp => subStr s sp.1 sp.2))

/-- Pattern text of the read category (line 49 of src/agent/actions.rs,
contents of the raw string). -/
def pRead : String :=
  "(?i)read\\s+(?:the\\s+)?file\\s+[`\"" ++ squo ++ "]?([^`\"" ++ squo ++ "\\s]+)[`\"" ++ squo ++ "]?"

/-- Pattern text of the write category (line 50). -/
def pWrite : String :=
  "(?i)write\\s+(?:to\\s+)?(?:the\\s+)?file\\s+[`\"" ++ squo ++ "]?([^`\"" ++ squo ++ "\\s]+)[`\"" ++ squo ++ "]?"

/-- Pattern text of the create category (line 51).  The source writes
this one as a raw string whose last characters are `]?\` followed by the
raw-string terminator: inside a raw string `\"` is two characters, so
the escaped-looking quotes stay escaped for the regex engine and the
final backslash is a bare trailing backslash in the pattern. -/
def pCreate : String :=
  "(?i)create\\s+(?:a\\s+)?(?:new\\s+)?file(?:\\s+called)?\\s+[`\\\"" ++ squo
    ++ "]?([^`\\\"" ++ squo ++ "\\s]+)[`\\\"" ++ squo ++ "]?\\"

/-- Pattern text of the save category (line 52). -/
def pSave : String :=
  "(?i)save\\s+(?:to\\s+)?[`\"" ++ squo ++ "]?([^`\"" ++ squo ++ "\\s]+)[`\"" ++ squo ++ "]?"

/-- Pattern text of the delete category (line 53). -/
def pDelete : String :=
  "(?i)delete\\s+(?:the\\s+)?file\\s+[`\"" ++ squo ++ "]?([^`\"" ++ squo ++ "\\s]+)[`\"" ++ squo ++ "]?"

/-- Pattern text of the remove category (line 54). -/
def pRemove : String :=
  "(?i)remove\\s+(?:the\\s+)?file\\s+[`\"" ++ squo ++ "]?([^`\"" ++ squo ++ "\\s]+)[`\"" ++ squo ++ "]?"

/-- Pattern text of the list category (line 55). -/
def pList : String :=
  "(?i)list\\s+(?:the\\s+)?(?:files\\s+in\\s+)?(?:directory\\s+)?[`\"" ++ squo
    ++ "]?([^`\"" ++ squo ++ "\\s]+)[`\"" ++ squo ++ "]?"

/-- Pattern text of the execute category (line 56). -/
def pExecute : String :=
  "(?i)execute\\s+[`\"" ++ squo ++ "]?([^`\"" ++ squo ++ "\\n]+)[`\"" ++ squo ++ "]?"

/-- Pattern text of the run category (line 57). -/
def pRun : String :=
  "(?i)run\\s+[`\"" ++ squo ++ "]?([^`\"" ++ squo ++ "\\n]+)[`\"" ++ squo ++ "]?"

/-- The ordered pattern table of
`AgentActionParser::extract_natural_language_actions`. -/
def patternTable : List (String × String) :=
  [(pRead, "read"), (pWrite, "write"), (pCreate, "write"), (pSave, "write"),
   (pDelete, "delete"), (pRemove, "delete"), (pList, "list"),
   (pExecute, "execute"), (pRun, "execute")]

/-- Pattern of the fenced structured block scanned by
`extract_json_actions`. -/
def jsonBlockPat : String := "```json\\s*(.*?)\\s*```"

/-- Pattern of a fenced code block with any language tag, scanned by
`extract_content_for_file`. -/
def codeBlockPat : String := "```(?:\\w+)?\\s*(.*?)\\s*```"

/-- Placeholder content used when no code block qualifies. -/
def todoContent : String := "// TODO: Add content"


/-- Embedding of `str::trim`: removes leading and trailing whitespace,
implemented over character data so concrete evaluation stays inside
structural recursion. -/
def trimStr (s : String) : String :=
  String.mk (((s.data.dropWhile (fun c => whitespaceChars.contains c)).reverse.dropWhile
    (fun c => whitespaceChars.contains c)).reverse)

/-- First code block whose start offset is within 500 characters of the
filename mention, yielding its group-one text. -/
def firstNearBlock (ms : List (Nat × Nat × Option (Nat × Nat))) (pos : Nat) (s : String) :
    Option String :=
  match ms with
  | [] => none
  | m :: rest =>
    if ((m.1 : Int) - (pos : Int)).natAbs < 500 then
      match m.2.2 with
      | some sp => some (subStr s sp.1 sp.2)
      | none => firstNearBlock rest pos s
    else firstNearBlock rest pos s

/-- Embedding of `AgentActionParser::extract_content_for_file`. -/
def extract_content_for_file (response filename : String) : Option String :=
  match compileRE codeBlockPat with
  | none => none
  | some re =>
    match strFind response filename with
    | none => none
    | some filename_pos => firstNearBlock (capturesOf re response) filename_pos response

/-- Builds the action of one pattern match, the `match action_type` of
the source loop. -/
def actionOfMatch (response : String) (action_type : String) (target_str : String) :
    Option AgentAction :=
  if action_type = "read" then some (AgentAction.ReadFile target_str)
  else if action_type = "write" then
    some (AgentAction.WriteFile target_str
      ((extract_content_for_file response target_str).getD todoContent))
  else if action_type = "delete" then some (AgentAction.DeleteFile target_str)
  else if action_type = "list" then some (AgentAction.ListDirectory target_str)
  else if action_type = "execute" then some (AgentAction.ExecuteCommand target_str none)
  else none

/-- Embedding of `AgentActionParser::extract_natural_language_actions`:
each table row compiles its pattern (a failed compilation skips the
category, the `if let Ok` guard) and every group-one match becomes an
action after trimming. -/
def extract_natural_language_actions (response : String) : List AgentAction :=
  patternTable.flatMap (fun pr =>
    match compileRE pr.1 with
    | none => []
    | some re =>
      (group1Strings re response).filterMap (fun target =>
        actionOfMatch response pr.2 (trimStr target)))

/-- Scans structured-block matches, returning the first block the
deserializer accepts. -/
def firstJsonHit (jsonDec : String → Option (List AgentAction)) (response : String) :
    List (Nat × Nat × Option (Nat × Nat)) → Option (List AgentAction)
  | [] => none
  | m :: rest =>
    match m.2.2 with
    | none => firstJsonHit jsonDec response rest
    | some sp =>
      match jsonDec (subStr response sp.1 sp.2) with
      | some acts => some acts
      | none => firstJsonHit jsonDec response rest

/-- Embedding of `AgentActionParser::extract_json_actions`.  The JSON
deserializer (serde, attempted first as a list of actions and then as a
single action) is an opaque parameter `jsonDec`; the block scan around
it is embedded exactly. -/
def extract_json_actions (jsonDec : String → Option (List AgentAction)) (response : String) :
    Option (List AgentAction) :=
  match compileRE jsonBlockPat with
  | none => none
  | some re => firstJsonHit jsonDec response (capturesOf re response)

/-- Embedding of `AgentActionParser::parse_agent_response`: structured
findings first, then the heuristic findings. -/
def parse_agent_response (jsonDec : String → Option (List AgentAction)) (response : String) :
    List AgentAction :=
  ((extract_json_actions jsonDec response).getD []) ++ extract_natural_language_actions response

/-- Embedding of `process_agent_message` in src/agent/actions.rs: parse,
then run the batch sequentially. -/
def process_agent_message (jsonDec : String → Option (List AgentAction)) (message : String)
    (ex : DefaultAgentExecutor) (w : World) : Except String (List AgentResponse × World) :=
  runBatch ex w (parse_agent_response jsonDec message)

/-- Character data of an appended string is the appended data. -/
theorem strDataAppend (a b : String) : (a ++ b).data = a.data ++ b.data := rfl

/-- String length of an appended string adds the lengths. -/
theorem strLenAppend (a b : String) : (a ++ b).length = a.length + b.length := by
  show (a ++ b).data.length = a.data.length + b.data.length
  rw [strDataAppend, List.length_append]

/-- An absolute path has slash-headed character data. -/
theorem isAbsolutePath_data {a : String} (h : isAbsolutePath a = true) :
    ∃ t, a.data = Char.ofNat 47 :: t := by
  unfold isAbsolutePath at h
  rcases hd : a.data with _ | ⟨c, t⟩
  · rw [hd] at h; cases h
  · rw [hd] at h
    simp only [decide_eq_true_eq] at h
    exact ⟨t, by simp [hd, h]⟩

/-- Appending cannot lose a leading slash. -/
theorem isAbsolutePath_append {a : String} (b : String) (h : isAbsolutePath a = true) :
    isAbsolutePath (a ++ b) = true := by
  obtain ⟨t, ht⟩ := isAbsolutePath_data h
  unfold isAbsolutePath
  rw [strDataAppend, ht]
  simp

/-- Joining a relative path onto an absolute base yields an absolute
path. -/
theorem pathJoin_absolute {a : String} (b : String) (h : isAbsolutePath a = true) :
    isAbsolutePath (pathJoin a b) = true := by
  unfold pathJoin
  split
  · assumption
  · obtain ⟨t, ht⟩ := isAbsolutePath_data h
    split
    · simp_all
    · split
      · exact isAbsolutePath_append b h
      · exact isAbsolutePath_append b (isAbsolutePath_append "/" h)

/-- Resolution always yields an absolute path once the session working
directory is absolute. -/
theorem resolve_path_absolute (ex : DefaultAgentExecutor) (p : String)
    (h : isAbsolutePath ex.current_directory = true) :
    isAbsolutePath (resolve_path ex p) = true := by
  unfold resolve_path
  split
  · assumption
  · exact pathJoin_absolute p h

/-- C9: assuming the session working directory is absolute,
`resolve_path` returns an absolute path, and it is idempotent: resolving
an already-resolved path returns it unchanged. -/
theorem resolve_path_abs_and_idempotent (ex : DefaultAgentExecutor) (p : String)
    (h : isAbsolutePath ex.current_directory = true) :
    isAbsolutePath (resolve_path ex p) = true
      ∧ resolve_path ex (resolve_path ex p) = resolve_path ex p := by
  refine ⟨resolve_path_absolute ex p h, ?_⟩
  have habs := resolve_path_absolute ex p h
  show (if isAbsolutePath (resolve_path ex p) = true then resolve_path ex p
    else pathJoin ex.current_directory (resolve_path ex p)) = resolve_path ex p
  rw [if_pos habs]

/-- Witness for the resolution theorem at a concrete executor. -/
theorem resolve_path_abs_and_idempotent_witness :
    isAbsolutePath (DefaultAgentExecutor.mk defaultCapabilities "/workspace").current_directory = true
      ∧ (isAbsolutePath (resolve_path (DefaultAgentExecutor.mk defaultCapabilities "/workspace") "src/main.rs") = true
        ∧ resolve_path (DefaultAgentExecutor.mk defaultCapabilities "/workspace")
            (resolve_path (DefaultAgentExecutor.mk defaultCapabilities "/workspace") "src/main.rs")
          = resolve_path (DefaultAgentExecutor.mk defaultCapabilities "/workspace") "src/main.rs") :=
  ⟨by decide, resolve_path_abs_and_idempotent _ "src/main.rs" (by decide)⟩

/-- Executor fixture with the default capability policy. -/
def exDen : DefaultAgentExecutor :=
  { capabilities := defaultCapabilities, current_directory := "/workspace" }

/-- World fixture: empty filesystem, a shell whose spawn fails, nothing
read-only. -/
def wEmpty : World :=
  { fs := ⟨[]⟩, shell := fun _ _ => Except.error "spawn failure", roFlag := fun _ => false }

/-- C1 counterexample: at a concretely denied action the response's
message is "Action not permitted" but its error text is the longer
sentence of the source, not the exact string the claim quotes. -/
theorem denied_error_text_counterexample :
    is_safe_action exDen (AgentAction.ExecuteCommand "ls" none) = false
      ∧ (execOut exDen wEmpty (AgentAction.ExecuteCommand "ls" none)).1.message = "Action not permitted"
      ∧ (execOut exDen wEmpty (AgentAction.ExecuteCommand "ls" none)).1.error
          = some "This action is restricted by the current capabilities"
      ∧ (execOut exDen wEmpty (AgentAction.ExecuteCommand "ls" none)).1.error
          ≠ some "restricted by capabilities" := by
  refine ⟨rfl, rfl, rfl, ?_⟩
  decide

/-- C1 (amended): whenever the authorization gate refuses an action,
dispatch returns exactly the denial response with success false, message
"Action not permitted" and error "This action is restricted by the
current capabilities", the world is unchanged and no collaborator call
is made. -/
theorem execute_denied_fail_closed (ex : DefaultAgentExecutor) (w : World) (a : AgentAction)
    (h : is_safe_action ex a = false) :
    executeAction ex w a
      = Except.ok (AgentResponse.mkError "Action not permitted"
          "This action is restricted by the current capabilities", w, []) := by
  unfold executeAction
  rw [h]
  rfl

/-- Witness for the denial theorem at a concrete restricted read. -/
theorem execute_denied_fail_closed_witness :
    is_safe_action exDen (AgentAction.ReadFile "/etc/passwd") = false
      ∧ executeAction exDen wEmpty (AgentAction.ReadFile "/etc/passwd")
          = Except.ok (AgentResponse.mkError "Action not permitted"
              "This action is restricted by the current capabilities", wEmpty, []) :=
  ⟨by decide, execute_denied_fail_closed exDen wEmpty _ (by decide)⟩

/-- Executor fixture permitted to run commands. -/
def exExec : DefaultAgentExecutor :=
  { capabilities := { defaultCapabilities with can_execute_commands := true }
    current_directory := "/workspace" }

/-- C10: the command dispatch hands the given working directory to the
child verbatim — the only collaborator call is the shell invocation with
exactly that directory — and for a relative directory under an absolute
session directory, resolution would have produced a different string,
so no joining onto the session directory happens. -/
theorem executeCommand_working_dir_verbatim (ex : DefaultAgentExecutor) (w : World)
    (c wd : String) (hex : ex.capabilities.can_execute_commands = true) :
    (execOut ex w (AgentAction.ExecuteCommand c (some wd))).2.2 = [Effect.runCommandEff c wd]
      ∧ (isAbsolutePath ex.current_directory = true → isAbsolutePath wd = false →
          resolve_path ex wd ≠ wd) := by
  constructor
  · rcases hsh : w.shell c wd with e | out
    · simp [execOut, executeAction, is_safe_action, hex, hsh]
    · by_cases hss : out.statusSuccess = true <;> by_cases hst : out.stderr = "" <;>
        simp [execOut, executeAction, is_safe_action, hex, hsh, hss, hst]
  · intro habs hrel heq
    have hlen := congrArg String.length heq
    unfold resolve_path pathJoin at hlen
    rw [if_neg (by simp [hrel]), if_neg (by simp [hrel])] at hlen
    obtain ⟨t, ht⟩ := isAbsolutePath_data habs
    have hne : ¬ ex.current_directory.data = [] := by rw [ht]; simp
    rw [if_neg hne] at hlen
    have h2 : ex.current_directory.length = t.length + 1 := by simp [String.length, ht]
    by_cases hslash : endsWithSlash ex.current_directory = true
    · rw [if_pos hslash, strLenAppend] at hlen
      omega
    · rw [if_neg hslash, strLenAppend, strLenAppend] at hlen
      have h1 : ("/" : String).length = 1 := rfl
      omega

/-- Witness for the verbatim working-directory theorem. -/
theorem executeCommand_working_dir_verbatim_witness :
    exExec.capabilities.can_execute_commands = true
      ∧ ((execOut exExec wEmpty (AgentAction.ExecuteCommand "make" (some "build"))).2.2
          = [Effect.runCommandEff "make" "build"]
        ∧ (isAbsolutePath exExec.current_directory = true → isAbsolutePath "build" = false →
            resolve_path exExec "build" ≠ "build")) :=
  ⟨rfl, executeCommand_working_dir_verbatim exExec wEmpty "make" "build" rfl⟩

/-- The executable lead test agrees with the take-of-components wording. -/
theorem isLeadOf_iff_take (xs : List String) : ∀ ys,
    isLeadOf xs ys = true ↔ xs = ys.take xs.length := by
  induction xs with
  | nil => intro ys; simp [isLeadOf]
  | cons x xs ih =>
    intro ys
    cases ys with
    | nil => simp [isLeadOf]
    | cons y ys => simp [isLeadOf, ih, eq_comm (a := x) (b := y)]

/-- Modelled from the spec wording: a configured restricted entry is a
literal path-component lead of the path, i.e. its components are the
leading take of the path's components. -/
def specLeadsOf (r p : String) : Prop :=
  pathComponents r = (pathComponents p).take (pathComponents r).length

/-- C2: restriction is decided component-by-component — it holds exactly
when some configured entry's components are a leading segment of the
path's components — and a raw string lead is not enough: "/etc" leads
the text of "/etcetera/x" yet that path is not restricted under the
default policy, while "/etc/passwd" is. -/
theorem is_path_restricted_component_wise (ex : DefaultAgentExecutor) (p : String)
    (_hp : isAbsolutePath p = true) :
    (is_path_restricted ex p = true ↔
        ∃ r ∈ ex.capabilities.restricted_paths, specLeadsOf r p)
      ∧ strLeads "/etc" "/etcetera/x" = true
      ∧ is_path_restricted exDen "/etcetera/x" = false
      ∧ is_path_restricted exDen "/etc/passwd" = true := by
  refine ⟨?_, by decide, by decide, by decide⟩
  unfold is_path_restricted
  rw [List.any_eq_true]
  exact exists_congr fun r => and_congr_right fun _ => isLeadOf_iff_take _ _

/-- Witness for the component-wise restriction theorem. -/
theorem is_path_restricted_component_wise_witness :
    isAbsolutePath "/etcetera/x" = true
      ∧ ((is_path_restricted exDen "/etcetera/x" = true ↔
            ∃ r ∈ exDen.capabilities.restricted_paths, specLeadsOf r "/etcetera/x")
        ∧ strLeads "/etc" "/etcetera/x" = true
        ∧ is_path_restricted exDen "/etcetera/x" = false
        ∧ is_path_restricted exDen "/etc/passwd" = true) :=
  ⟨by decide, is_path_restricted_component_wise exDen "/etcetera/x" (by decide)⟩

/-- Filesystem fixture for the listing claim: directory /d holding file
b.txt, subdirectory a, and file c.txt. -/
def fsC4 : FileSystem :=
  ⟨[("/d", FsNode.dir), ("/d/b.txt", FsNode.file "b"), ("/d/a", FsNode.dir),
    ("/d/c.txt", FsNode.file "c")]⟩

/-- World fixture around `fsC4`. -/
def wC4 : World :=
  { fs := fsC4, shell := fun _ _ => Except.error "spawn failure", roFlag := fun _ => false }

/-- Modelled from the claim wording "(type, name) grouping": directories
first sorted by name, then files sorted by name, each rendered. -/
def groupedByTypeRender (entries : List (String × String × Bool)) : List String :=
  sortStrings ((entries.filter (fun e => e.2.2)).map (fun e => renderEntry true e.2.1))
    ++ sortStrings ((entries.filter (fun e => !e.2.2)).map (fun e => renderEntry false e.2.1))

/-- C4 counterexample: on the fixture {b.txt, a/, c.txt} the listing
equals exactly the (type, name)-grouped rendering — directories are
grouped before files, refuting the claimed interleaving — and the
rendered line is padded to field width six, not the claimed two
spaces. -/
theorem listDirectory_grouping_counterexample :
    (execOut exDen wC4 (AgentAction.ListDirectory "/d")).1.data
        = some (String.intercalate "\n" (groupedByTypeRender ((fsReadDir fsC4 "/d").getD [])))
      ∧ (execOut exDen wC4 (AgentAction.ListDirectory "/d")).1.data
        = some "DIR    a\nFILE   b.txt\nFILE   c.txt"
      ∧ renderEntry true "a" ≠ "DIR  a" := by
  refine ⟨by decide, by decide, by decide⟩

/-- C4 (amended): every rendered directory line is lexicographically
smaller than every rendered file line (the DIR tag sorts before the FILE
tag), so the lexicographic sort of rendered lines places all directories
before all files; on the fixture the order is DIR a, FILE b.txt,
FILE c.txt. -/
theorem listDirectory_sort_groups_dirs_first :
    (∀ dn fn : String, strLtB (renderEntry true dn) (renderEntry false fn) = true)
      ∧ (execOut exDen wC4 (AgentAction.ListDirectory "/d")).1.data
          = some "DIR    a\nFILE   b.txt\nFILE   c.txt" := by
  constructor
  · intro dn fn
    rfl
  · decide

/-- Whether a search hit exists does not depend on the starting index. -/
theorem findSubAux_isSome_shift (pat : List Char) (cs : List Char) :
    ∀ i j, (findSubAux pat cs i).isSome = (findSubAux pat cs j).isSome := by
  induction cs with
  | nil =>
    intro i j
    unfold findSubAux
    split <;> rfl
  | cons c rest ih =>
    intro i j
    unfold findSubAux
    split
    · rfl
    · exact ih (i + 1) (j + 1)

/-- A substring of the suffix is a substring of the whole. -/
theorem strContains_append_right (x suffix pat : String)
    (h : strContains suffix pat = true) : strContains (x ++ suffix) pat = true := by
  unfold strContains strFind at *
  rw [strDataAppend]
  generalize x.data = cs
  induction cs with
  | nil => simpa using h
  | cons c rest ih =>
    rw [List.cons_append]
    unfold findSubAux
    split
    · rfl
    · rw [findSubAux_isSome_shift pat.data (rest ++ suffix.data) 1 0]
      exact ih

/-- Every response leaving dispatch was built by one of the two
constructor functions. -/
theorem execOut_resp_shape (ex : DefaultAgentExecutor) (w : World) (a : AgentAction) :
    (∃ m d, (execOut ex w a).1 = AgentResponse.mkSuccess m d)
      ∨ (∃ m e, (execOut ex w a).1 = AgentResponse.mkError m e) := by
  have h : ∀ r w2 effs, executeAction ex w a = Except.ok (r, w2, effs) →
      (∃ m d, r = AgentResponse.mkSuccess m d) ∨ (∃ m e, r = AgentResponse.mkError m e) := by
    cases a <;> simp only [executeAction] <;> intro r w2 effs hh <;> (repeat' split at hh) <;>
      simp only [Except.ok.injEq, Prod.mk.injEq] at hh <;>
      first
        | exact Or.inl ⟨_, _, hh.1.symm⟩
        | exact Or.inr ⟨_, _, hh.1.symm⟩
  obtain ⟨⟨r, w2, effs⟩, hr⟩ := executeAction_isOk ex w a
  have hout : (execOut ex w a).1 = r := by simp [execOut, hr]
  rw [hout]
  exact h r w2 effs hr

/-- C5: outcome polarity — a successful response never carries an error
and a failed response never carries data, on every dispatch path. -/
theorem response_polarity (ex : DefaultAgentExecutor) (w : World) (a : AgentAction) :
    ((execOut ex w a).1.success = true → (execOut ex w a).1.error = none)
      ∧ ((execOut ex w a).1.success = false → (execOut ex w a).1.data = none) := by
  rcases execOut_resp_shape ex w a with ⟨m, d, hr⟩ | ⟨m, e, hr⟩ <;> rw [hr] <;>
    simp [AgentResponse.mkSuccess, AgentResponse.mkError]

/-- Witness for the polarity theorem at a concrete denied action, whose
response fails and therefore carries no data. -/
theorem response_polarity_witness :
    (execOut exDen wEmpty (AgentAction.ExecuteCommand "ls" none)).1.success = false
      ∧ (execOut exDen wEmpty (AgentAction.ExecuteCommand "ls" none)).1.data = none :=
  ⟨by decide,
    (response_polarity exDen wEmpty (AgentAction.ExecuteCommand "ls" none)).2 (by decide)⟩

/-- Functional description of sequential batch execution: one response
per action, threading the world between actions. -/
def batchOut (ex : DefaultAgentExecutor) (w : World) : List AgentAction → List AgentResponse × World
  | [] => ([], w)
  | a :: rest =>
    let o := execOut ex w a
    let r := batchOut ex o.2.1 rest
    (o.1 :: r.1, r.2)

/-- The batch loop never propagates an error and computes `batchOut`. -/
theorem runBatch_eq_ok (ex : DefaultAgentExecutor) (actions : List AgentAction) :
    ∀ w, runBatch ex w actions = Except.ok (batchOut ex w actions) := by
  induction actions with
  | nil => intro w; rfl
  | cons a rest ih =>
    intro w
    rcases hoE : executeAction ex w a with e | t
    · obtain ⟨r, hr⟩ := executeAction_isOk ex w a
      rw [hoE] at hr
      cases hr
    · rcases t with ⟨r, w1, effs⟩
      have hout : execOut ex w a = (r, w1, effs) := by simp [execOut, hoE]
      simp only [runBatch, hoE, batchOut, hout, ih w1]

/-- One response per action in batch order. -/
theorem batchOut_length (ex : DefaultAgentExecutor) (actions : List AgentAction) :
    ∀ w, (batchOut ex w actions).1.length = actions.length := by
  induction actions with
  | nil => intro w; rfl
  | cons a rest ih => intro w; simp [batchOut, ih]

/-- C6: processing a message executes the whole parsed batch without any
propagated fault — the result is `Except.ok` — and yields exactly one
response per parsed action, in order, as described by `batchOut`. -/
theorem process_agent_message_one_response_per_action
    (jsonDec : String → Option (List AgentAction)) (message : String)
    (ex : DefaultAgentExecutor) (w : World) :
    process_agent_message jsonDec message ex w
        = Except.ok (batchOut ex w (parse_agent_response jsonDec message))
      ∧ (batchOut ex w (parse_agent_response jsonDec message)).1.length
        = (parse_agent_response jsonDec message).length :=
  ⟨runBatch_eq_ok ex _ w, batchOut_length ex _ w⟩

/-- C7: DeleteFile stats the resolved path before any removal call:
a missing path yields the dedicated failure whose error text contains
"does not exist" and the only collaborator call is the stat; an existing
directory is removed recursively; an existing file is removed
directly. -/
theorem deleteFile_stats_first (ex : DefaultAgentExecutor) (w : World) (p : String)
    (hsafe : is_safe_action ex (AgentAction.DeleteFile p) = true) :
    (fsLookup w.fs (resolve_path ex p) = none →
        execOut ex w (AgentAction.DeleteFile p)
          = (AgentResponse.mkError "Path does not exist"
              ("Path " ++ resolve_path ex p ++ " does not exist"), w,
             [Effect.statEff (resolve_path ex p)])
          ∧ strContains ("Path " ++ resolve_path ex p ++ " does not exist") "does not exist" = true)
      ∧ (fsIsDir w.fs (resolve_path ex p) = true →
          execOut ex w (AgentAction.DeleteFile p)
            = (AgentResponse.mkSuccess ("Successfully deleted: " ++ resolve_path ex p) none,
               { w with fs := fsRemoveDirAll w.fs (resolve_path ex p) },
               [Effect.statEff (resolve_path ex p), Effect.removeDirEff (resolve_path ex p)]))
      ∧ (fsIsFile w.fs (resolve_path ex p) = true →
          execOut ex w (AgentAction.DeleteFile p)
            = (AgentResponse.mkSuccess ("Successfully deleted: " ++ resolve_path ex p) none,
               { w with fs := fsRemoveFile w.fs (resolve_path ex p) },
               [Effect.statEff (resolve_path ex p), Effect.removeFileEff (resolve_path ex p)])) := by
  refine ⟨fun hnone => ⟨?_, ?_⟩, fun hdir => ?_, fun hfile => ?_⟩
  · have hf : fsIsFile w.fs (resolve_path ex p) = false := by simp [fsIsFile, hnone]
    have hd : fsIsDir w.fs (resolve_path ex p) = false := by simp [fsIsDir, hnone]
    simp [execOut, executeAction, hsafe, hf, hd]
  · exact strContains_append_right _ " does not exist" _ (by decide)
  · have hf : fsIsFile w.fs (resolve_path ex p) = false := by
      unfold fsIsDir at hdir
      unfold fsIsFile
      split at hdir
      · split
        · simp_all
        · rfl
      · cases hdir
    simp [execOut, executeAction, hsafe, hf, hdir]
  · simp [execOut, executeAction, hsafe, hfile]

/-- Witness for the delete theorem: deleting a missing path in an empty
world. -/
theorem deleteFile_stats_first_witness :
    is_safe_action exDen (AgentAction.DeleteFile "gone.txt") = true
      ∧ (fsLookup wEmpty.fs (resolve_path exDen "gone.txt") = none →
          execOut exDen wEmpty (AgentAction.DeleteFile "gone.txt")
            = (AgentResponse.mkError "Path does not exist"
                ("Path " ++ resolve_path exDen "gone.txt" ++ " does not exist"), wEmpty,
               [Effect.statEff (resolve_path exDen "gone.txt")])
            ∧ strContains ("Path " ++ resolve_path exDen "gone.txt" ++ " does not exist")
                "does not exist" = true)
      ∧ (fsIsDir wEmpty.fs (resolve_path exDen "gone.txt") = true →
          execOut exDen wEmpty (AgentAction.DeleteFile "gone.txt")
            = (AgentResponse.mkSuccess ("Successfully deleted: " ++ resolve_path exDen "gone.txt") none,
               { wEmpty with fs := fsRemoveDirAll wEmpty.fs (resolve_path exDen "gone.txt") },
               [Effect.statEff (resolve_path exDen "gone.txt"),
                Effect.removeDirEff (resolve_path exDen "gone.txt")]))
      ∧ (fsIsFile wEmpty.fs (resolve_path exDen "gone.txt") = true →
          execOut exDen wEmpty (AgentAction.DeleteFile "gone.txt")
            = (AgentResponse.mkSuccess ("Successfully deleted: " ++ resolve_path exDen "gone.txt") none,
               { wEmpty with fs := fsRemoveFile wEmpty.fs (resolve_path exDen "gone.txt") },
               [Effect.statEff (resolve_path exDen "gone.txt"),
                Effect.removeFileEff (resolve_path exDen "gone.txt")])) :=
  ⟨by decide, deleteFile_stats_first exDen wEmpty "gone.txt" (by decide)⟩

/-- C8: SearchFiles authorization ignores every capability flag — only
the restricted-path check matters, applied to the resolved directory or
to the session working directory when none is given — and an unlistable
directory produces a success with zero matches and empty data, leaving
the world unchanged. -/
theorem searchFiles_capability_free_and_swallows
    (caps1 caps2 : AgentCapabilities) (cwd pattern : String) (dirOpt : Option String)
    (ex : DefaultAgentExecutor) (w : World)
    (hre : caps1.restricted_paths = caps2.restricted_paths)
    (hsafe : is_safe_action ex (AgentAction.SearchFiles pattern dirOpt) = true)
    (hnone : fsReadDir w.fs (resolve_path ex (dirOpt.getD ex.current_directory)) = none) :
    is_safe_action { capabilities := caps1, current_directory := cwd }
        (AgentAction.SearchFiles pattern dirOpt)
      = is_safe_action { capabilities := caps2, current_directory := cwd }
        (AgentAction.SearchFiles pattern dirOpt)
      ∧ execOut ex w (AgentAction.SearchFiles pattern dirOpt)
        = (AgentResponse.mkSuccess ("Found 0 matches for pattern " ++ squo ++ pattern ++ squo)
            (some ""), w,
           [Effect.readDirEff (resolve_path ex (dirOpt.getD ex.current_directory))]) := by
  constructor
  · cases dirOpt <;> simp [is_safe_action, is_path_restricted, hre, resolve_path]
  · simp [execOut, executeAction, hsafe, hnone]
    rfl

/-- Capability fixture with every flag flipped from the default. -/
def capsFlip : AgentCapabilities :=
  { can_read_files := false
    can_write_files := false
    can_execute_commands := true
    can_modify_filesystem := false
    restricted_paths := defaultCapabilities.restricted_paths }

/-- Witness for the search theorem: flipped flags agree, and searching
the empty world succeeds with zero matches. -/
theorem searchFiles_capability_free_and_swallows_witness :
    defaultCapabilities.restricted_paths = capsFlip.restricted_paths
      ∧ is_safe_action exDen (AgentAction.SearchFiles "main" none) = true
      ∧ fsReadDir wEmpty.fs (resolve_path exDen ((none : Option String).getD exDen.current_directory)) = none
      ∧ (is_safe_action { capabilities := defaultCapabilities, current_directory := "/workspace" }
            (AgentAction.SearchFiles "main" none)
          = is_safe_action { capabilities := capsFlip, current_directory := "/workspace" }
            (AgentAction.SearchFiles "main" none)
        ∧ execOut exDen wEmpty (AgentAction.SearchFiles "main" none)
          = (AgentResponse.mkSuccess ("Found 0 matches for pattern " ++ squo ++ "main" ++ squo)
              (some ""), wEmpty,
             [Effect.readDirEff (resolve_path exDen ((none : Option String).getD exDen.current_directory))])) :=
  ⟨rfl, by decide, by decide,
    searchFiles_capability_free_and_swallows defaultCapabilities capsFlip "/workspace" "main" none
      exDen wEmpty rfl (by decide) (by decide)⟩

/-- The exact input text of the parsing claim, also the text asserted on
by the unit test at the bottom of src/agent/actions.rs. -/
def c3Text : String :=
  "read the file src/main.rs and then create a new file called test.txt"

/-- C3: on the claimed text the parser finds only the ReadFile action.
The create-file pattern of the table never compiles — its raw-string
text ends in a bare backslash, so regex construction fails and the
`if let Ok` guard skips the whole category — hence no WriteFile action
for test.txt is produced and the parse has one action, not the two the
spec and the unit test in the source expect. -/
theorem parse_c3_text_single_action (jsonDec : String → Option (List AgentAction)) :
    parse_agent_response jsonDec c3Text = [AgentAction.ReadFile "src/main.rs"]
      ∧ (compileRE pCreate).isSome = false
      ∧ (parse_agent_response jsonDec c3Text).length ≠ 2 := by
  have h1 : parse_agent_response jsonDec c3Text = [AgentAction.ReadFile "src/main.rs"] := rfl
  refine ⟨h1, rfl, ?_⟩
  rw [h1]
  decide
